import Mathlib

/-!
Shallow embedding of the proof-verification engine of `indy-crypto`
(`src/libindy-crypto/src/cl/verifier.rs`), together with theorems checking
the natural-language specification of the verifier against that code.

The big-integer primitive (OpenSSL `BigNumber` in the source) is embedded as
`Nat` with explicit modular arithmetic.  The external collaborators that the
verifier calls but that are outside the verifier source (the shared
commitment-construction helpers `calc_teq` and `calc_tge`, the accumulator
group operations, the hash-to-integer function, serialization to bytes, and
the authorization add-on) are supplied as an explicit environment of
functions, mirroring the fact that the verifier treats them as opaque
routines.
-/

set_option autoImplicit false
set_option maxRecDepth 200000

namespace IndyCrypto

/-- Modelled from the spec: the fixed iteration count `ITERATION` of indexed
components in a GE (range) predicate proof, defined in the repository
`cl/constants.rs` (four square components plus one aggregate `DELTA` slot). -/
def ITERATION : Nat := 4

/-- Modelled from the spec: the constant `LARGE_E_START` of the repository
`cl/constants.rs`, used as the exponent `2 ^ LARGE_E_START` applied to
`a_prime` during equality-proof verification. -/
def LARGE_E_START : Nat := 596

/-- Modelled from the spec: binary modular exponentiation, the
`BigNumber::mod_exp` primitive of the external big-integer library
(spec treats modular exponentiation as an assumed-correct external
primitive).  Fuel-driven so that the kernel can evaluate it even for the
fixed huge exponent `2 ^ LARGE_E_START`. -/
def modPowFuel : Nat → Nat → Nat → Nat → Nat
  | 0, _, _, n => 1 % n
  | fuel + 1, a, e, n =>
    if e = 0 then 1 % n
    else
      let r := modPowFuel fuel (a * a % n) (e / 2) n
      if e % 2 = 1 then r * a % n else r

/-- `a ^ e mod n` computed by binary exponentiation. -/
def modPow (a e n : Nat) : Nat := modPowFuel e a e n

/-- Modelled from the spec: the `BigNumber::mod_mul` primitive. -/
def modMul (a b n : Nat) : Nat := a * b % n

/-- Fuel-driven extended Euclidean algorithm: starting from remainders
`r0, r1` with Bezout rows `(s0, t0)` and `(s1, t1)`, returns the row of the
last nonzero remainder. -/
def egcdAux : Nat → Int → Int → Int → Int → Nat → Nat → Int
  | 0, s0, _, _, _, _, _ => s0
  | fuel + 1, s0, t0, s1, t1, r0, r1 =>
    if r1 = 0 then s0
    else
      egcdAux fuel s1 t1 (s0 - (r0 / r1 : Nat) * s1) (t0 - (r0 / r1 : Nat) * t1)
        r1 (r0 % r1)

/-- Modelled from the spec: the `BigNumber::inverse` primitive (modular
inverse via the extended Euclidean algorithm, the assumed-correct external
big-integer routine), made total; the verifier only composes it, never
inspects failure of it. -/
def modInv (a n : Nat) : Nat := (egcdAux (n + 1) 1 0 0 1 a n % (n : Int)).toNat

/-- Modelled from the spec: the `BigNumber::mod_div` primitive, division
modulo `n` as multiplication by the modular inverse (`z / rar` in the
equality-proof verification). -/
def modDiv (a b n : Nat) : Nat := a * modInv b n % n

/-- Byte vector (`Vec<u8>` in the source); the byte values themselves are
opaque to the verifier, which only concatenates and hashes them. -/
abbrev Bytes : Type := List Nat

/-- A numeric constraint on one attribute (`Predicate` in `cl/mod.rs`):
attribute name, comparison tag (only `GE` is in use) and threshold value. -/
structure Predicate where
  attr_name : String
  p_type : String
  value : Nat
deriving DecidableEq

/-- Modelled from the spec: opaque accumulator-group public key
(`CredentialRevocationPublicKey`), referenced read-only by the verifier. -/
abbrev CredentialRevocationPublicKey : Type := Nat

/-- Modelled from the spec: opaque revocation registry state. -/
abbrev RevocationRegistry : Type := Nat

/-- Modelled from the spec: opaque revocation key public part. -/
abbrev RevocationKeyPublic : Type := Nat

/-- Modelled from the spec: opaque commitment list of a non-revocation
transcript (`NonRevocProofCList`); the verifier passes it whole to the
external tau-list constructors. -/
abbrev NonRevocProofCList : Type := Nat

/-- Modelled from the spec: opaque response list of a non-revocation
transcript (`NonRevocProofXList`). -/
abbrev NonRevocProofXList : Type := Nat

/-- Modelled from the spec: opaque authorization proof carried by a `Proof`
(the authorization-accumulator subsystem is an optional add-on outside the
core). -/
abbrev AuthzProofData : Type := Nat

/-- Modelled from the spec: opaque authorization accumulator state passed to
`verify`. -/
abbrev AuthzAccumulators : Type := Nat

/-- RSA-like group parameters of one credential type
(`CredentialPrimaryPublicKey`): modulus `n`, generators `s`, `z` and the
per-attribute generator map `r`. -/
structure CredentialPrimaryPublicKey where
  n : Nat
  s : Nat
  z : Nat
  r : List (String × Nat)
deriving DecidableEq

/-- `CredentialPublicKey`: primary part plus optional revocation part. -/
structure CredentialPublicKey where
  p_key : CredentialPrimaryPublicKey
  r_key : Option CredentialRevocationPublicKey
deriving DecidableEq

/-- `CredentialSchema`: the set of attribute names of a credential type. -/
structure CredentialSchema where
  attrs : Finset String
deriving DecidableEq

/-- `NonCredentialSchemaElements`: attribute names present in the proof but
not part of the public schema. -/
structure NonCredentialSchemaElements where
  attrs : Finset String
deriving DecidableEq

/-- `SubProofRequest`: what the verifier demands for one credential. -/
structure SubProofRequest where
  revealed_attrs : Finset String
  predicates : Finset Predicate
  include_authz_proof : Bool
deriving DecidableEq

/-- `VerifiableCredential`: the verifier stored record of one registered
sub-proof request. -/
structure VerifiableCredential where
  pub_key : CredentialPublicKey
  sub_proof_request : SubProofRequest
  credential_schema : CredentialSchema
  non_credential_schema_elements : NonCredentialSchemaElements
  rev_key_pub : Option RevocationKeyPublic
  rev_reg : Option RevocationRegistry
deriving DecidableEq

/-- `PrimaryEqualProof`: the prover equality-leg transcript.  The maps
(`revealed_attrs`, `m`) are `BTreeMap`s in the source, embedded as
association lists. -/
structure PrimaryEqualProof where
  revealed_attrs : List (String × Nat)
  a_prime : Nat
  e : Nat
  v : Nat
  m : List (String × Nat)
  m2 : Nat
deriving DecidableEq

/-- `PrimaryPredicateGEProof`: the prover range-proof transcript for one
predicate; `u`, `r` and `t` are maps indexed by stringified component
indices plus the sentinel key `DELTA`. -/
structure PrimaryPredicateGEProof where
  u : List (String × Nat)
  r : List (String × Nat)
  mj : Nat
  alpha : Nat
  t : List (String × Nat)
  predicate : Predicate
deriving DecidableEq

/-- `PrimaryProof`: equality leg plus one GE leg per predicate. -/
structure PrimaryProof where
  eq_proof : PrimaryEqualProof
  ge_proofs : List PrimaryPredicateGEProof
deriving DecidableEq

/-- `NonRevocProof`: the prover accumulator-membership transcript. -/
structure NonRevocProof where
  x_list : NonRevocProofXList
  c_list : NonRevocProofCList
deriving DecidableEq

/-- `AggregatedProof`: the prover claimed Fiat-Shamir challenge `c_hash`
and original commitment list `c_list`. -/
structure AggregatedProof where
  c_hash : Nat
  c_list : List Bytes
deriving DecidableEq

/-- One entry of `Proof.proofs` (primary proof plus optional non-revocation
transcript). -/
structure SubProof where
  primary_proof : PrimaryProof
  non_revoc_proof : Option NonRevocProof
deriving DecidableEq

/-- The full submission of the prover (`Proof`): a `BTreeMap` from credential
key id to sub-proof (embedded as an association list in map order), the
aggregated proof, and the optional authorization proof. -/
structure Proof where
  proofs : List (String × SubProof)
  aggregated_proof : AggregatedProof
  authz_proof : Option AuthzProofData
deriving DecidableEq

/-- Outcome classification of the verifier: the `IndyCryptoError` variants
the verifier produces, plus `panicked`, marking a Rust panic (out-of-bounds
index / `unwrap` on `None`), which in Rust aborts instead of returning. -/
inductive VerifyError where
  | invalidStructure (msg : String)
  | rejected (msg : String)
  | panicked
deriving DecidableEq, Repr

instance exceptDecEq {ε α : Type} [DecidableEq ε] [DecidableEq α] :
    DecidableEq (Except ε α) := fun a b =>
  match a, b with
  | .ok x, .ok y =>
    if h : x = y then .isTrue (by rw [h]) else .isFalse (by simp [h])
  | .error x, .error y =>
    if h : x = y then .isTrue (by rw [h]) else .isFalse (by simp [h])
  | .ok _, .error _ => .isFalse (by simp)
  | .error _, .ok _ => .isFalse (by simp)

/-- The eight commitment terms of a non-revocation verification
(`NonRevocProofTauList`): `t1,t2,t5,t6` live in the additive-style group
carrier `A`, `t3,t4,t7,t8` in the multiplicative (pairing) carrier `M`. -/
structure NonRevocProofTauList (A M : Type) where
  t1 : A
  t2 : A
  t3 : M
  t4 : M
  t5 : A
  t6 : A
  t7 : M
  t8 : M

/-- Modelled from the spec: the external collaborators of the verifier,
which are outside `verifier.rs` and specified only at their interface: the
shared commitment-construction routines `calc_teq` and `calc_tge`
(`cl/helpers.rs`), the accumulator-group constructors and operations, the
byte serializers, the domain-separated hash-to-integer function, and the
authorization add-on verification.  `A` and `M` are the additive-style and
multiplicative-style group carriers, `E` the group-order element type of the
converted challenge. -/
structure Env (A M E : Type) where
  calcTeq : CredentialPrimaryPublicKey → Nat → Nat → Nat →
    List (String × Nat) → Nat → Finset String → Nat
  calcTge : CredentialPrimaryPublicKey → List (String × Nat) →
    List (String × Nat) → Nat → Nat → List (String × Nat) → List Nat
  bignumToGroupElement : Nat → E
  createTauListExpectedValues : CredentialRevocationPublicKey →
    RevocationRegistry → RevocationKeyPublic → NonRevocProofCList →
    NonRevocProofTauList A M
  createTauListValues : CredentialRevocationPublicKey → RevocationRegistry →
    NonRevocProofXList → NonRevocProofCList → NonRevocProofTauList A M
  pointMul : A → E → A
  pointAdd : A → A → A
  pairPow : M → E → M
  pairMul : M → M → M
  tauListToBytes : NonRevocProofTauList A M → List Bytes
  authzVerify : AuthzProofData → Nat → AuthzAccumulators →
    Except VerifyError Bytes
  getHashAsInt : List Bytes → Nat
  bnToBytes : Nat → Bytes
  nonceToBytes : Nat → Bytes

/-- Key-based lookup in an association list, the embedding of
`BTreeMap::get`. -/
def alookup {α : Type} : List (String × α) → String → Option α
  | [], _ => none
  | kv :: rest, key => if key = kv.1 then some kv.2 else alookup rest key

namespace ProofVerifier

/-- One credential structural check inside
`ProofVerifier::_check_verify_params_consistency` (verifier.rs:321-352):
the proof must contain an entry for the registered key id, the revealed
attribute-name set of its equality proof must equal the registered
`revealed_attrs` set, and the predicate set of its GE proofs must equal the
registered `predicates` set. -/
def checkCredential (proof : Proof) (key_id : String)
    (credential : VerifiableCredential) : Except VerifyError Unit :=
  match alookup proof.proofs key_id with
  | none => .error (.rejected "Proof not found")
  | some proof_for_credential =>
    if (proof_for_credential.primary_proof.eq_proof.revealed_attrs.map
          Prod.fst).toFinset ≠ credential.sub_proof_request.revealed_attrs then
      .error (.rejected
        "Proof revealed attributes not correspond to requested attributes")
    else if (proof_for_credential.primary_proof.ge_proofs.map
          (fun ge_proof => ge_proof.predicate)).toFinset ≠
            credential.sub_proof_request.predicates then
      .error (.rejected "Proof predicates not correspond to requested predicates")
    else
      .ok ()

/-- `ProofVerifier::_check_verify_params_consistency` (verifier.rs:311-358):
iterate the registered credentials in map order, applying `checkCredential`
to each. -/
def checkVerifyParamsConsistency :
    List (String × VerifiableCredential) → Proof → Except VerifyError Unit
  | [], _ => .ok ()
  | (key_id, credential) :: rest, proof => do
    checkCredential proof key_id credential
    checkVerifyParamsConsistency rest proof

/-- One step of the fold over `proof.revealed_attrs` in
`ProofVerifier::_verify_equality` (verifier.rs:449-459): look up the
attribute generator in `pk.r` (a missing generator is a proof rejection) and
fold `rar = cur_r ^ encoded_value * rar (mod n)`. -/
def eqRevealedStep (p_pub_key : CredentialPrimaryPublicKey) (rar : Nat)
    (av : String × Nat) : Except VerifyError Nat :=
  match alookup p_pub_key.r av.1 with
  | none => .error (.rejected "Value by key not found in pk.r")
  | some cur_r => .ok (modMul (modPow cur_r av.2 p_pub_key.n) rar p_pub_key.n)

/-- `ProofVerifier::_verify_equality` (verifier.rs:402-472): recompute the
single equality commitment `t = t1 * t2 (mod n)` from the shared routine
`calc_teq` over the unrevealed attributes, the folded
`rar = a_prime ^ (2 ^ LARGE_E_START) * prod r[attr] ^ value (mod n)`, and
`t2 = ((z / rar)⁻¹) ^ c_hash (mod n)`. -/
def verifyEquality {A M E : Type} (env : Env A M E)
    (p_pub_key : CredentialPrimaryPublicKey) (proof : PrimaryEqualProof)
    (c_hash : Nat) (cred_schema : CredentialSchema)
    (non_cred_schema_elements : NonCredentialSchemaElements)
    (sub_proof_request : SubProofRequest) : Except VerifyError (List Nat) := do
  let unrevealed_attrs :=
    (cred_schema.attrs ∪ non_cred_schema_elements.attrs) \
      sub_proof_request.revealed_attrs
  let t1 := env.calcTeq p_pub_key proof.a_prime proof.e proof.v proof.m
    proof.m2 unrevealed_attrs
  let degree := 2 ^ LARGE_E_START
  let rar0 := modPow proof.a_prime degree p_pub_key.n
  let rar ← proof.revealed_attrs.foldlM (eqRevealedStep p_pub_key) rar0
  let t2 := modPow (modInv (modDiv p_pub_key.z rar p_pub_key.n) p_pub_key.n)
    c_hash p_pub_key.n
  .ok [modMul t1 t2 p_pub_key.n]

/-- One step of the indexed-component loop in
`ProofVerifier::_verify_ge_predicate` (verifier.rs:496-507): look up the
transcript commitment `t[i]` (missing entry is a proof rejection) and fold
`tau_list[i] = (t[i] ^ c_hash)⁻¹ * tau_list[i] (mod n)`; an out-of-range
index on the `Vec` is a Rust panic. -/
def geFoldStep (p_pub_key : CredentialPrimaryPublicKey) (c_hash : Nat)
    (t : List (String × Nat)) (tau_list : List Nat) (i : Nat) :
    Except VerifyError (List Nat) :=
  match alookup t (toString i) with
  | none => .error (.rejected "Value by key not found in proof.t")
  | some cur_t =>
    if i < tau_list.length then
      .ok (tau_list.set i
        (modMul (modInv (modPow cur_t c_hash p_pub_key.n) p_pub_key.n)
          (tau_list.getD i 0) p_pub_key.n))
    else .error .panicked

/-- `ProofVerifier::_verify_ge_predicate` (verifier.rs:474-539): start from
the base tau list of the shared routine `calc_tge`, fold the challenge into
each indexed component, then into the aggregate slot at `ITERATION` (with
the public threshold from the transcript predicate) and the final slot at
`ITERATION + 1`. -/
def verifyGePredicate {A M E : Type} (env : Env A M E)
    (p_pub_key : CredentialPrimaryPublicKey)
    (proof : PrimaryPredicateGEProof) (c_hash : Nat) :
    Except VerifyError (List Nat) := do
  let base := env.calcTge p_pub_key proof.u proof.r proof.mj proof.alpha proof.t
  let tau_list ← (List.range ITERATION).foldlM
    (geFoldStep p_pub_key c_hash proof.t) base
  match alookup proof.t "DELTA" with
  | none => .error (.rejected "Value by key DELTA not found in proof.t")
  | some delta =>
    if ITERATION < tau_list.length then
      let v1 := modMul
        (modInv
          (modPow (modPow p_pub_key.z proof.predicate.value p_pub_key.n * delta)
            c_hash p_pub_key.n) p_pub_key.n)
        (tau_list.getD ITERATION 0) p_pub_key.n
      let tau_list2 := tau_list.set ITERATION v1
      if ITERATION + 1 < tau_list2.length then
        .ok (tau_list2.set (ITERATION + 1)
          (modMul (modInv (modPow delta c_hash p_pub_key.n) p_pub_key.n)
            (tau_list2.getD (ITERATION + 1) 0) p_pub_key.n))
      else .error .panicked
    else .error .panicked

/-- `ProofVerifier::_verify_primary_proof` (verifier.rs:360-400): the
equality commitment first, then each predicate GE commitments in the
declared order. -/
def verifyPrimaryProof {A M E : Type} (env : Env A M E)
    (p_pub_key : CredentialPrimaryPublicKey) (c_hash : Nat)
    (primary_proof : PrimaryProof) (cred_schema : CredentialSchema)
    (non_cred_schema_elements : NonCredentialSchemaElements)
    (sub_proof_request : SubProofRequest) : Except VerifyError (List Nat) := do
  let t_hat ← verifyEquality env p_pub_key primary_proof.eq_proof c_hash
    cred_schema non_cred_schema_elements sub_proof_request
  primary_proof.ge_proofs.foldlM
    (fun acc ge_proof => do
      let l ← verifyGePredicate env p_pub_key ge_proof c_hash
      pure (acc ++ l)) t_hat

/-- `ProofVerifier::_verify_non_revocation_proof` (verifier.rs:541-605):
convert the challenge to a group element, build the expected values (public
state and commitment list only) and the calculated values (response and
commitment lists), and combine them per-index: additively for
`t1,t2,t5,t6`, multiplicatively for `t3,t4,t7,t8`. -/
def verifyNonRevocationProof {A M E : Type} (env : Env A M E)
    (r_pub_key : CredentialRevocationPublicKey) (rev_reg : RevocationRegistry)
    (rev_key_pub : RevocationKeyPublic) (c_hash : Nat)
    (proof : NonRevocProof) : NonRevocProofTauList A M :=
  let ch_num_z := env.bignumToGroupElement c_hash
  let t_hat_expected_values :=
    env.createTauListExpectedValues r_pub_key rev_reg rev_key_pub proof.c_list
  let t_hat_calc_values :=
    env.createTauListValues r_pub_key rev_reg proof.x_list proof.c_list
  { t1 := env.pointAdd (env.pointMul t_hat_expected_values.t1 ch_num_z)
      t_hat_calc_values.t1
    t2 := env.pointAdd (env.pointMul t_hat_expected_values.t2 ch_num_z)
      t_hat_calc_values.t2
    t3 := env.pairMul (env.pairPow t_hat_expected_values.t3 ch_num_z)
      t_hat_calc_values.t3
    t4 := env.pairMul (env.pairPow t_hat_expected_values.t4 ch_num_z)
      t_hat_calc_values.t4
    t5 := env.pointAdd (env.pointMul t_hat_expected_values.t5 ch_num_z)
      t_hat_calc_values.t5
    t6 := env.pointAdd (env.pointMul t_hat_expected_values.t6 ch_num_z)
      t_hat_calc_values.t6
    t7 := env.pairMul (env.pairPow t_hat_expected_values.t7 ch_num_z)
      t_hat_calc_values.t7
    t8 := env.pairMul (env.pairPow t_hat_expected_values.t8 ch_num_z)
      t_hat_calc_values.t8 }

/-- The per-credential loop of `ProofVerifier::verify` (verifier.rs:210-244):
iterate the submitted proof entries in map order; `self.credentials[key]`
on an unregistered key id is a Rust panic; a non-revocation transcript
contributes its eight serialized terms only when the registered credential
also carries the full revocation configuration; then the primary-proof
commitments are appended.  Returns the running byte list and the
accumulated `include_authz_proof` flag. -/
def collectTauList {A M E : Type} (env : Env A M E)
    (credentials : List (String × VerifiableCredential)) (c_hash : Nat) :
    List (String × SubProof) → Except VerifyError (List Bytes × Bool)
  | [] => .ok ([], false)
  | (issuerkey_id, proof_item) :: rest =>
    match alookup credentials issuerkey_id with
    | none => .error .panicked
    | some credential => do
      let inc := credential.sub_proof_request.include_authz_proof
      let nr_bytes : List Bytes :=
        match proof_item.non_revoc_proof, credential.pub_key.r_key,
          credential.rev_reg, credential.rev_key_pub with
        | some non_revocation_proof, some cred_rev_pub_key, some rev_reg,
          some rev_key_pub =>
          env.tauListToBytes (verifyNonRevocationProof env cred_rev_pub_key
            rev_reg rev_key_pub c_hash non_revocation_proof)
        | _, _, _, _ => []
      let primary ← verifyPrimaryProof env credential.pub_key.p_key c_hash
        proof_item.primary_proof credential.credential_schema
        credential.non_credential_schema_elements
        credential.sub_proof_request
      let (rest_bytes, rest_inc) ← collectTauList env credentials c_hash rest
      .ok (nr_bytes ++ primary.map env.bnToBytes ++ rest_bytes,
        inc || rest_inc)

/-- The authorization step of `ProofVerifier::verify` (verifier.rs:256-259):
when the proof carries an `authz_proof`, `accumulators.unwrap()` panics on
`None`, otherwise the add-on verification runs and its output joins the
hashed values. -/
def authzTList {A M E : Type} (env : Env A M E) (proof : Proof)
    (accumulators : Option AuthzAccumulators) :
    Except VerifyError (List Bytes) :=
  match proof.authz_proof with
  | none => .ok []
  | some authz_proof =>
    match accumulators with
    | none => .error .panicked
    | some acc =>
      (fun t_list => [t_list]) <$>
        env.authzVerify authz_proof proof.aggregated_proof.c_hash acc

/-- `ProofVerifier::verify` (verifier.rs:199-272): structural consistency
check, per-credential recomputation, the missing-required-authorization
early `Ok(false)`, then the challenge recomputation over recomputed
commitments, the prover `c_list`, the optional authorization commitment
and the nonce, compared against the claimed `c_hash`. -/
def verify {A M E : Type} (env : Env A M E)
    (credentials : List (String × VerifiableCredential)) (proof : Proof)
    (nonce : Nat) (accumulators : Option AuthzAccumulators) :
    Except VerifyError Bool := do
  checkVerifyParamsConsistency credentials proof
  let (tau_list, include_authz_proof) ←
    collectTauList env credentials proof.aggregated_proof.c_hash proof.proofs
  if include_authz_proof && proof.authz_proof.isNone then
    .ok false
  else do
    let authz_values ← authzTList env proof accumulators
    let values := tau_list ++ proof.aggregated_proof.c_list ++ authz_values ++
      [env.nonceToBytes nonce]
    let c_hver := env.getHashAsInt values
    .ok (c_hver == proof.aggregated_proof.c_hash)

end ProofVerifier

/-! Concrete instances used to exercise the embedding on closed inputs. -/

/-- A small concrete environment instantiating every external collaborator
over `Nat` carriers. -/
def env0 : Env Nat Nat Nat where
  calcTeq := fun _ _ _ _ _ _ _ => 1
  calcTge := fun _ _ _ _ _ _ => [1, 1, 1, 1, 1, 1]
  bignumToGroupElement := fun c => c
  createTauListExpectedValues := fun _ _ _ _ => ⟨1, 1, 1, 1, 1, 1, 1, 1⟩
  createTauListValues := fun _ _ _ _ => ⟨1, 1, 1, 1, 1, 1, 1, 1⟩
  pointMul := fun a e => a * e
  pointAdd := fun a b => a + b
  pairPow := fun a e => a ^ e
  pairMul := fun a b => a * b
  tauListToBytes := fun tl => [[tl.t1, tl.t2], [tl.t3]]
  authzVerify := fun _ _ _ => .ok []
  getHashAsInt := fun _ => 5
  bnToBytes := fun x => [x]
  nonceToBytes := fun x => [x]

/-- A small concrete primary public key with modulus 11. -/
def pk0 : CredentialPrimaryPublicKey :=
  { n := 11, s := 2, z := 3, r := [("name", 5)] }

def schema0 : CredentialSchema := { attrs := {"name"} }

def ncs0 : NonCredentialSchemaElements := { attrs := ∅ }

/-- Sub-proof request demanding nothing, without authorization proof. -/
def spr0 : SubProofRequest :=
  { revealed_attrs := ∅, predicates := ∅, include_authz_proof := false }

/-- Sub-proof request demanding nothing, but requiring an authorization
proof. -/
def sprAuthz : SubProofRequest :=
  { revealed_attrs := ∅, predicates := ∅, include_authz_proof := true }

/-- Sub-proof request revealing the attribute `name`. -/
def sprName : SubProofRequest :=
  { revealed_attrs := {"name"}, predicates := ∅, include_authz_proof := false }

def pred0 : Predicate := { attr_name := "name", p_type := "GE", value := 2 }

/-- Sub-proof request with the single predicate `pred0`. -/
def sprPred : SubProofRequest :=
  { revealed_attrs := ∅, predicates := {pred0}, include_authz_proof := false }

def cred0 : VerifiableCredential :=
  { pub_key := { p_key := pk0, r_key := none }
    sub_proof_request := spr0
    credential_schema := schema0
    non_credential_schema_elements := ncs0
    rev_key_pub := none
    rev_reg := none }

def credAuthz : VerifiableCredential :=
  { cred0 with sub_proof_request := sprAuthz }

def credName : VerifiableCredential :=
  { cred0 with sub_proof_request := sprName }

def credPred : VerifiableCredential :=
  { cred0 with sub_proof_request := sprPred }

/-- An equality transcript revealing nothing. -/
def eqPrf0 : PrimaryEqualProof :=
  { revealed_attrs := [], a_prime := 2, e := 3, v := 4, m := [], m2 := 5 }

/-- An equality transcript revealing `name` with encoded value 2. -/
def eqPrfName : PrimaryEqualProof :=
  { revealed_attrs := [("name", 2)], a_prime := 2, e := 3, v := 4, m := [],
    m2 := 5 }

/-- A GE transcript with a full `t` map. -/
def gePrf0 : PrimaryPredicateGEProof :=
  { u := [], r := [], mj := 0, alpha := 0
    t := [("0", 2), ("1", 3), ("2", 4), ("3", 5), ("DELTA", 6)]
    predicate := pred0 }

/-- A GE transcript whose `t` map is missing the indexed entry `1`. -/
def gePrfMissing : PrimaryPredicateGEProof :=
  { gePrf0 with t := [("0", 2), ("DELTA", 6)] }

def item0 : SubProof :=
  { primary_proof := { eq_proof := eqPrf0, ge_proofs := [] }
    non_revoc_proof := none }

/-- A sub-proof carrying the single GE transcript `gePrf0`. -/
def itemPred : SubProof :=
  { primary_proof := { eq_proof := eqPrf0, ge_proofs := [gePrf0] }
    non_revoc_proof := none }

def aggr5 : AggregatedProof := { c_hash := 5, c_list := [] }

/-- Submission with one entry under key `k` and no authorization proof. -/
def proofK : Proof :=
  { proofs := [("k", item0)], aggregated_proof := aggr5, authz_proof := none }

/-- Submission with the GE-carrying entry under key `k`. -/
def proofPred : Proof :=
  { proofs := [("k", itemPred)], aggregated_proof := aggr5,
    authz_proof := none }

/-- Submission with an extra entry under key `a` that is never registered. -/
def proofExtra : Proof :=
  { proofs := [("a", item0), ("b", item0)], aggregated_proof := aggr5,
    authz_proof := none }

/-- Empty submission that carries an authorization proof. -/
def proofAuthz : Proof :=
  { proofs := [], aggregated_proof := aggr5, authz_proof := some 0 }

/-- Empty submission without an authorization proof. -/
def proofEmpty : Proof :=
  { proofs := [], aggregated_proof := aggr5, authz_proof := none }

def credsAuthz : List (String × VerifiableCredential) := [("k", credAuthz)]

def credsB : List (String × VerifiableCredential) := [("b", cred0)]

def credsName : List (String × VerifiableCredential) := [("k", credName)]

def credsPred : List (String × VerifiableCredential) := [("k", credPred)]

/-! Theorems.  First the arithmetic primitives, then the specification
claims about the verifier. -/

theorem modPowFuel_correct (fuel : Nat) :
    ∀ (a e n : Nat), e < 2 ^ fuel → modPowFuel fuel a e n = a ^ e % n := by
  induction fuel with
  | zero =>
    intro a e n he
    interval_cases e
    simp [modPowFuel]
  | succ f ih =>
    intro a e n he
    by_cases h0 : e = 0
    · subst h0; simp [modPowFuel]
    · have hdiv : e / 2 < 2 ^ f := by
        have : e < 2 ^ f * 2 := by
          simpa [pow_succ] using he
        omega
      have hr : modPowFuel f (a * a % n) (e / 2) n = (a * a) ^ (e / 2) % n := by
        rw [ih (a * a % n) (e / 2) n hdiv]
        rw [← Nat.pow_mod]
      have hsq : (a * a) ^ (e / 2) = a ^ (2 * (e / 2)) := by
        rw [two_mul, pow_add, ← mul_pow]
      by_cases hodd : e % 2 = 1
      · have hdm : 2 * (e / 2) + 1 = e := by omega
        simp only [modPowFuel, h0, if_false, hodd, if_true]
        rw [hr, hsq, Nat.mod_mul_mod, ← pow_succ, hdm]
      · have hdm : 2 * (e / 2) = e := by omega
        simp only [modPowFuel, h0, if_false, hodd, if_false]
        rw [hr, hsq, hdm]

theorem modPow_eq (a e n : Nat) : modPow a e n = a ^ e % n :=
  modPowFuel_correct e a e n (Nat.lt_two_pow e)

theorem modMul_eq (a b n : Nat) : modMul a b n = a * b % n := rfl

theorem mem_of_alookup_eq_some {α : Type} {l : List (String × α)} {k : String}
    {v : α} (h : alookup l k = some v) : (k, v) ∈ l := by
  induction l with
  | nil => simp [alookup] at h
  | cons kv rest ih =>
    by_cases hk : k = kv.1
    · rw [alookup, if_pos hk] at h
      obtain rfl : kv.2 = v := by injection h
      subst hk
      exact List.mem_cons_self _ _
    · rw [alookup, if_neg hk] at h
      exact List.mem_cons_of_mem _ (ih h)

theorem alookup_eq_some_of_mem {α : Type} {l : List (String × α)} {k : String}
    {v : α} (hnd : (l.map Prod.fst).Nodup) (hm : (k, v) ∈ l) :
    alookup l k = some v := by
  induction l with
  | nil => simp at hm
  | cons kv rest ih =>
    rw [List.map_cons, List.nodup_cons] at hnd
    rcases List.mem_cons.mp hm with heq | hmem
    · subst heq
      rw [alookup, if_pos rfl]
    · have hk : k ≠ kv.1 := by
        intro hkk
        exact hnd.1 (hkk ▸ List.mem_map.mpr ⟨(k, v), hmem, rfl⟩)
      rw [alookup, if_neg hk]
      exact ih hnd.2 hmem

namespace ProofVerifier

theorem checkCredential_ok_iff {proof : Proof} {key_id : String}
    {credential : VerifiableCredential} :
    checkCredential proof key_id credential = .ok () ↔
      ∃ item, alookup proof.proofs key_id = some item ∧
        (item.primary_proof.eq_proof.revealed_attrs.map Prod.fst).toFinset =
          credential.sub_proof_request.revealed_attrs ∧
        (item.primary_proof.ge_proofs.map
          (fun ge_proof => ge_proof.predicate)).toFinset =
          credential.sub_proof_request.predicates := by
  unfold checkCredential
  cases h : alookup proof.proofs key_id with
  | none => simp
  | some item =>
    dsimp only
    split_ifs with h1 h2 <;> simp_all

theorem checkCredential_error_rejected {proof : Proof} {key_id : String}
    {credential : VerifiableCredential} {e : VerifyError}
    (h : checkCredential proof key_id credential = .error e) :
    ∃ msg, e = .rejected msg := by
  unfold checkCredential at h
  cases halo : alookup proof.proofs key_id with
  | none =>
    rw [halo] at h
    exact ⟨_, (by injection h with h; exact h.symm)⟩
  | some item =>
    rw [halo] at h
    dsimp only at h
    split_ifs at h <;>
      exact ⟨_, (by injection h with h; exact h.symm)⟩

theorem check_ok_iff {credentials : List (String × VerifiableCredential)}
    {proof : Proof} :
    checkVerifyParamsConsistency credentials proof = .ok () ↔
      ∀ kc ∈ credentials, checkCredential proof kc.1 kc.2 = .ok () := by
  induction credentials with
  | nil => simp [checkVerifyParamsConsistency]
  | cons kc rest ih =>
    rw [checkVerifyParamsConsistency]
    cases h : checkCredential proof kc.1 kc.2 with
    | error e =>
      simp only [bind, Except.bind, h]
      constructor
      · intro hcon; exact absurd hcon (by simp)
      · intro hall
        exact absurd (hall kc (List.mem_cons_self _ _)) (by simp [h])
    | ok u =>
      obtain rfl : u = () := rfl
      simp only [bind, Except.bind, h]
      rw [ih]
      constructor
      · intro hall kc2 hm
        rcases List.mem_cons.mp hm with rfl | hm2
        · exact h
        · exact hall kc2 hm2
      · intro hall kc2 hm
        exact hall kc2 (List.mem_cons_of_mem _ hm)

theorem check_error_rejected {credentials : List (String × VerifiableCredential)}
    {proof : Proof} {e : VerifyError}
    (h : checkVerifyParamsConsistency credentials proof = .error e) :
    ∃ msg, e = .rejected msg := by
  induction credentials with
  | nil => simp [checkVerifyParamsConsistency] at h
  | cons kc rest ih =>
    rw [checkVerifyParamsConsistency] at h
    cases hc : checkCredential proof kc.1 kc.2 with
    | error e2 =>
      simp only [bind, Except.bind, hc] at h
      obtain rfl : e2 = e := by injection h
      exact checkCredential_error_rejected hc
    | ok u =>
      obtain rfl : u = () := rfl
      simp only [bind, Except.bind, hc] at h
      exact ih h

theorem verify_of_check_error {A M E : Type} (env : Env A M E)
    {credentials : List (String × VerifiableCredential)} {proof : Proof}
    (nonce : Nat) (accumulators : Option AuthzAccumulators) {e : VerifyError}
    (h : checkVerifyParamsConsistency credentials proof = .error e) :
    verify env credentials proof nonce accumulators = .error e := by
  unfold verify
  simp only [bind, Except.bind, h]

theorem verify_of_check_collect_ok {A M E : Type} (env : Env A M E)
    {credentials : List (String × VerifiableCredential)} {proof : Proof}
    (nonce : Nat) (accumulators : Option AuthzAccumulators)
    {tau_list : List Bytes} {include_authz_proof : Bool}
    (hch : checkVerifyParamsConsistency credentials proof = .ok ())
    (hco : collectTauList env credentials proof.aggregated_proof.c_hash
      proof.proofs = .ok (tau_list, include_authz_proof)) :
    verify env credentials proof nonce accumulators =
      if include_authz_proof && proof.authz_proof.isNone then .ok false
      else
        match authzTList env proof accumulators with
        | .error e => .error e
        | .ok authz_values =>
          .ok (env.getHashAsInt (tau_list ++ proof.aggregated_proof.c_list ++
            authz_values ++ [env.nonceToBytes nonce]) ==
              proof.aggregated_proof.c_hash) := by
  unfold verify
  simp only [bind, Except.bind, hch, hco]
  split
  · rfl
  · cases authzTList env proof accumulators <;> rfl

theorem collect_cons_inv {A M E : Type} (env : Env A M E)
    {credentials : List (String × VerifiableCredential)} {c_hash : Nat}
    {k0 : String} {item0 : SubProof} {rest : List (String × SubProof)}
    {tau_list : List Bytes} {inc : Bool}
    (h : collectTauList env credentials c_hash ((k0, item0) :: rest) =
      .ok (tau_list, inc)) :
    ∃ cred0 primary rest_bytes rest_inc,
      alookup credentials k0 = some cred0 ∧
      verifyPrimaryProof env cred0.pub_key.p_key c_hash item0.primary_proof
        cred0.credential_schema cred0.non_credential_schema_elements
        cred0.sub_proof_request = .ok primary ∧
      collectTauList env credentials c_hash rest = .ok (rest_bytes, rest_inc) ∧
      inc = (cred0.sub_proof_request.include_authz_proof || rest_inc) := by
  rw [collectTauList] at h
  cases halo : alookup credentials k0 with
  | none => rw [halo] at h; exact absurd h (by simp)
  | some cred0 =>
    rw [halo] at h
    dsimp only at h
    cases hp : verifyPrimaryProof env cred0.pub_key.p_key c_hash
        item0.primary_proof cred0.credential_schema
        cred0.non_credential_schema_elements cred0.sub_proof_request with
    | error e => simp only [bind, Except.bind, hp] at h; exact absurd h (by simp)
    | ok primary =>
      simp only [bind, Except.bind, hp] at h
      cases hr : collectTauList env credentials c_hash rest with
      | error e => simp only [hr] at h; exact absurd h (by simp)
      | ok p =>
        obtain ⟨rest_bytes, rest_inc⟩ := p
        simp only [hr] at h
        refine ⟨cred0, primary, rest_bytes, rest_inc, rfl, hp, rfl, ?_⟩
        injection h with h
        exact (congrArg Prod.snd h).symm

theorem collect_inc_of_flag {A M E : Type} (env : Env A M E)
    {credentials : List (String × VerifiableCredential)} {c_hash : Nat} :
    ∀ {proofs : List (String × SubProof)} {tau_list : List Bytes} {inc : Bool},
      collectTauList env credentials c_hash proofs = .ok (tau_list, inc) →
      ∀ {k : String} {item : SubProof} {cred : VerifiableCredential},
        (k, item) ∈ proofs → alookup credentials k = some cred →
        cred.sub_proof_request.include_authz_proof = true → inc = true := by
  intro proofs
  induction proofs with
  | nil =>
    intro tau_list inc h k item cred hm
    simp at hm
  | cons kv rest ih =>
    obtain ⟨k0, item0⟩ := kv
    intro tau_list inc h k item cred hm halo hflag
    obtain ⟨cred0, primary, rest_bytes, rest_inc, halo0, hp, hr, hinc⟩ :=
      collect_cons_inv env h
    rcases List.mem_cons.mp hm with heq | hmem
    · obtain ⟨hk, hi⟩ := Prod.mk.injEq .. ▸ heq
      subst hk
      rw [halo] at halo0
      obtain rfl : cred = cred0 := by injection halo0
      rw [hinc, hflag, Bool.true_or]
    · have : rest_inc = true := ih hr hmem halo hflag
      rw [hinc, this, Bool.or_true]

/-- Claim C9: whenever at least one registered sub-proof request has
`include_authz_proof` set, the structural check and the per-credential
recomputation succeed, and the submitted proof carries no `authz_proof`,
`verify` returns the boolean `false` (`Ok(false)`), not an error
(verifier.rs:246-248). -/
theorem verify_false_when_required_authz_missing {A M E : Type}
    (env : Env A M E) (credentials : List (String × VerifiableCredential))
    (proof : Proof) (nonce : Nat) (accumulators : Option AuthzAccumulators)
    (k : String) (cred : VerifiableCredential)
    (tau_list : List Bytes) (inc : Bool)
    (hnd : (credentials.map Prod.fst).Nodup)
    (hmem : (k, cred) ∈ credentials)
    (hflag : cred.sub_proof_request.include_authz_proof = true)
    (hauthz : proof.authz_proof = none)
    (hch : checkVerifyParamsConsistency credentials proof = .ok ())
    (hco : collectTauList env credentials proof.aggregated_proof.c_hash
      proof.proofs = .ok (tau_list, inc)) :
    verify env credentials proof nonce accumulators = .ok false := by
  obtain ⟨item, hitem, -, -⟩ :=
    checkCredential_ok_iff.mp (check_ok_iff.mp hch (k, cred) hmem)
  have hmemp : (k, item) ∈ proof.proofs := mem_of_alookup_eq_some hitem
  have halo : alookup credentials k = some cred :=
    alookup_eq_some_of_mem hnd hmem
  have hinc : inc = true := collect_inc_of_flag env hco hmemp halo hflag
  rw [verify_of_check_collect_ok env nonce accumulators hch hco]
  rw [hinc, hauthz]
  rfl

/-- Claim C10: when the submitted proof carries an `authz_proof` but the
`accumulators` argument is `None`, and execution reaches the
authorization-verification step (the structural check and the
per-credential recomputation succeed), `verify` panics — the
`accumulators.unwrap()` of verifier.rs:257 — instead of returning an error
or a boolean. -/
theorem verify_panics_without_accumulators {A M E : Type} (env : Env A M E)
    (credentials : List (String × VerifiableCredential)) (proof : Proof)
    (nonce : Nat) (ap : AuthzProofData)
    (tau_list : List Bytes) (inc : Bool)
    (hauthz : proof.authz_proof = some ap)
    (hch : checkVerifyParamsConsistency credentials proof = .ok ())
    (hco : collectTauList env credentials proof.aggregated_proof.c_hash
      proof.proofs = .ok (tau_list, inc)) :
    verify env credentials proof nonce none = .error .panicked := by
  rw [verify_of_check_collect_ok env nonce none hch hco]
  rw [hauthz]
  simp only [Option.isNone_some, Bool.and_false, Bool.false_eq_true,
    if_false, authzTList, hauthz]

/-- Claim C3: if for some registered credential the revealed-attribute set
of the submitted equality proof differs from the registered
`revealed_attrs`, or the predicate set of the submitted GE proofs differs
from the registered `predicates`, then `verify` fails with a proof-rejected
error — and it does so for every environment of cryptographic
collaborators, i.e. before any cryptographic recomputation is performed
(verifier.rs:205, 326-352). -/
theorem verify_rejects_attr_or_predicate_mismatch
    (credentials : List (String × VerifiableCredential)) (proof : Proof)
    (k : String) (cred : VerifiableCredential) (item : SubProof)
    (hmem : (k, cred) ∈ credentials)
    (hitem : alookup proof.proofs k = some item)
    (hmis :
      (item.primary_proof.eq_proof.revealed_attrs.map Prod.fst).toFinset ≠
        cred.sub_proof_request.revealed_attrs ∨
      (item.primary_proof.ge_proofs.map
        (fun ge_proof => ge_proof.predicate)).toFinset ≠
        cred.sub_proof_request.predicates) :
    ∀ {A M E : Type} (env : Env A M E) (nonce : Nat)
      (accumulators : Option AuthzAccumulators),
      ∃ msg, verify env credentials proof nonce accumulators =
        .error (.rejected msg) := by
  intro A M E env nonce accumulators
  cases hch : checkVerifyParamsConsistency credentials proof with
  | ok u =>
    exfalso
    obtain rfl : u = () := rfl
    obtain ⟨item2, hitem2, h1, h2⟩ :=
      checkCredential_ok_iff.mp (check_ok_iff.mp hch (k, cred) hmem)
    rw [hitem] at hitem2
    obtain rfl : item = item2 := by injection hitem2
    rcases hmis with hm | hm
    · exact hm h1
    · exact hm h2
  | error e =>
    obtain ⟨msg, rfl⟩ := check_error_rejected hch
    exact ⟨msg, verify_of_check_error env nonce accumulators hch⟩

/-- Claim C1 (amended): when `verify` returns a boolean, the result is
`true` iff the required-authorization condition holds (no registered
sub-proof demanded an authorization proof that the submission omits) AND
the recomputed challenge — the hash over the recomputed commitments, the
prover `aggregated_proof.c_list`, the optional authorization commitment
and the nonce bytes — equals `aggregated_proof.c_hash`.  The
missing-required-authorization path of verifier.rs:246-248 is a second
source of boolean `false`, so the hash mismatch alone is not the sole
`false` path of the original claim. -/
theorem verify_true_iff_challenge_matches {A M E : Type} (env : Env A M E)
    (credentials : List (String × VerifiableCredential)) (proof : Proof)
    (nonce : Nat) (accumulators : Option AuthzAccumulators) (b : Bool)
    (tau_list : List Bytes) (inc : Bool) (authz_values : List Bytes)
    (hv : verify env credentials proof nonce accumulators = .ok b)
    (hco : collectTauList env credentials proof.aggregated_proof.c_hash
      proof.proofs = .ok (tau_list, inc))
    (ha : authzTList env proof accumulators = .ok authz_values) :
    b = true ↔
      (¬(inc = true ∧ proof.authz_proof = none) ∧
        env.getHashAsInt (tau_list ++ proof.aggregated_proof.c_list ++
          authz_values ++ [env.nonceToBytes nonce]) =
          proof.aggregated_proof.c_hash) := by
  cases hch : checkVerifyParamsConsistency credentials proof with
  | error e =>
    rw [verify_of_check_error env nonce accumulators hch] at hv
    exact absurd hv (by simp)
  | ok u =>
    obtain rfl : u = () := rfl
    rw [verify_of_check_collect_ok env nonce accumulators hch hco] at hv
    by_cases hcond : (inc && proof.authz_proof.isNone) = true
    · rw [if_pos hcond] at hv
      obtain rfl : false = b := by injection hv
      rw [Bool.and_eq_true, Option.isNone_iff_eq_none] at hcond
      simp [hcond.1, hcond.2]
    · rw [if_neg hcond] at hv
      rw [ha] at hv
      obtain rfl :
          (env.getHashAsInt (tau_list ++ proof.aggregated_proof.c_list ++
            authz_values ++ [env.nonceToBytes nonce]) ==
              proof.aggregated_proof.c_hash) = b := by injection hv
      rw [Bool.and_eq_true, Option.isNone_iff_eq_none] at hcond
      simp only [beq_iff_eq]
      exact ⟨fun heq => ⟨fun hcon => hcond ⟨hcon.1, hcon.2⟩, heq⟩,
        fun h => h.2⟩

/-- Witness for claim C9 at a concrete input: one registered credential
demanding an authorization proof, a structurally matching submission
without one. -/
theorem verify_false_when_required_authz_missing_witness :
    verify env0 credsAuthz proofK 0 none = .ok false :=
  verify_false_when_required_authz_missing env0 credsAuthz proofK 0 none
    "k" credAuthz [[1]] true (by decide) (by decide) (by decide) (by decide)
    (by decide) (by decide)

/-- Witness for claim C10 at a concrete input: empty registration, a
submission carrying an authorization proof, no accumulators supplied. -/
theorem verify_panics_without_accumulators_witness :
    verify env0 [] proofAuthz 0 none = .error .panicked :=
  verify_panics_without_accumulators env0 [] proofAuthz 0 0 [] false
    (by decide) (by decide) (by decide)

/-- Witness for claim C3 at a concrete input: the registration demands the
revealed attribute `name`, the submission reveals nothing. -/
theorem verify_rejects_attr_or_predicate_mismatch_witness :
    ∃ msg, verify env0 credsName proofK 0 none = .error (.rejected msg) :=
  verify_rejects_attr_or_predicate_mismatch credsName proofK "k" credName
    item0 (by decide) (by decide) (Or.inl (by decide)) env0 0 none

/-- Witness for claim C1 (amended) at a concrete input: empty registration
and empty submission, where the recomputed challenge matches and `verify`
returns `true`. -/
theorem verify_true_iff_challenge_matches_witness :
    (true = true) ↔
      (¬(false = true ∧ proofEmpty.authz_proof = none) ∧
        env0.getHashAsInt ([] ++ proofEmpty.aggregated_proof.c_list ++ [] ++
          [env0.nonceToBytes 0]) = proofEmpty.aggregated_proof.c_hash) :=
  verify_true_iff_challenge_matches env0 [] proofEmpty 0 none true [] false []
    (by decide) (by decide) (by decide)

/-- Counterexample for claim C1 as stated: a concrete run in which `verify`
returns the boolean `false` although the recomputed challenge hash over the
recomputed commitments, the prover commitment list and the nonce bytes
equals `aggregated_proof.c_hash` — the `false` comes from the
missing-required-authorization path, so the hash mismatch is not the sole
boolean-`false` path. -/
theorem verify_false_despite_matching_challenge :
    verify env0 credsAuthz proofK 0 none = .ok false ∧
    collectTauList env0 credsAuthz proofK.aggregated_proof.c_hash
      proofK.proofs = .ok ([[1]], true) ∧
    env0.getHashAsInt ([[1]] ++ proofK.aggregated_proof.c_list ++
      [env0.nonceToBytes 0]) = proofK.aggregated_proof.c_hash :=
  ⟨by decide, by decide, by decide⟩

theorem eqFold_ok {p_pub_key : CredentialPrimaryPublicKey} :
    ∀ (l : List (String × Nat)) (x rar : Nat),
      l.foldlM (eqRevealedStep p_pub_key) (x % p_pub_key.n) = .ok rar →
      rar = (x * (l.map
        (fun av => ((alookup p_pub_key.r av.1).getD 0) ^ av.2)).prod) %
          p_pub_key.n := by
  intro l
  induction l with
  | nil =>
    intro x rar h
    rw [List.foldlM_nil] at h
    obtain rfl : x % p_pub_key.n = rar := by injection h
    simp
  | cons av rest ih =>
    intro x rar h
    rw [List.foldlM_cons] at h
    cases halo : alookup p_pub_key.r av.1 with
    | none =>
      rw [eqRevealedStep, halo] at h
      exact absurd h (by simp [bind, Except.bind])
    | some cur_r =>
      rw [eqRevealedStep, halo] at h
      simp only [bind, Except.bind] at h
      have hstep : modMul (modPow cur_r av.2 p_pub_key.n) (x % p_pub_key.n)
          p_pub_key.n = (x * cur_r ^ av.2) % p_pub_key.n := by
        rw [modMul_eq, modPow_eq, Nat.mod_mul_mod]
        rw [Nat.mul_mod, Nat.mod_mod_of_dvd x (dvd_refl p_pub_key.n),
          ← Nat.mul_mod, Nat.mul_comm]
      rw [hstep] at h
      have := ih (x * cur_r ^ av.2) rar h
      rw [this, List.map_cons, List.prod_cons, halo]
      simp only [Option.getD_some]
      congr 1
      ring

/-- Claim C4: whenever equality-proof verification succeeds, the single
returned commitment is `t = t1 * t2 (mod n)`, where `t1` is computed by the
shared routine over `a_prime`, `e`, `v`, the `m` responses and `m2` for the
unrevealed attributes (schema union non-schema attributes minus the
registered revealed set), `rar = a_prime ^ (2 ^ LARGE_E_START) *
prod over revealed attributes of r[attr] ^ encoded_value (mod n)`, and
`t2 = ((z / rar)⁻¹) ^ c_hash (mod n)` (verifier.rs:419-471). -/
theorem verify_equality_spec {A M E : Type} (env : Env A M E)
    (p_pub_key : CredentialPrimaryPublicKey) (proof : PrimaryEqualProof)
    (c_hash : Nat) (cred_schema : CredentialSchema)
    (non_cred_schema_elements : NonCredentialSchemaElements)
    (sub_proof_request : SubProofRequest) (res : List Nat)
    (hok : verifyEquality env p_pub_key proof c_hash cred_schema
      non_cred_schema_elements sub_proof_request = .ok res) :
    res = [modMul
      (env.calcTeq p_pub_key proof.a_prime proof.e proof.v proof.m proof.m2
        ((cred_schema.attrs ∪ non_cred_schema_elements.attrs) \
          sub_proof_request.revealed_attrs))
      (modInv (modDiv p_pub_key.z
          ((proof.a_prime ^ 2 ^ LARGE_E_START *
            (proof.revealed_attrs.map
              (fun av => ((alookup p_pub_key.r av.1).getD 0) ^ av.2)).prod) %
            p_pub_key.n)
          p_pub_key.n) p_pub_key.n ^ c_hash % p_pub_key.n)
      p_pub_key.n] := by
  rw [verifyEquality] at hok
  simp only [bind, Except.bind] at hok
  cases hfold : proof.revealed_attrs.foldlM (eqRevealedStep p_pub_key)
      (modPow proof.a_prime (2 ^ LARGE_E_START) p_pub_key.n) with
  | error e => rw [hfold] at hok; exact absurd hok (by simp)
  | ok rar =>
    rw [hfold] at hok
    obtain rfl :
        [modMul
          (env.calcTeq p_pub_key proof.a_prime proof.e proof.v proof.m
            proof.m2
            ((cred_schema.attrs ∪ non_cred_schema_elements.attrs) \
              sub_proof_request.revealed_attrs))
          (modPow (modInv (modDiv p_pub_key.z rar p_pub_key.n) p_pub_key.n)
            c_hash p_pub_key.n)
          p_pub_key.n] = res := by injection hok
    rw [modPow_eq] at hfold
    have hrar := eqFold_ok proof.revealed_attrs (proof.a_prime ^ 2 ^
      LARGE_E_START) rar hfold
    rw [hrar, modPow_eq]

/-- Witness for claim C4 at a concrete input: the key `pk0`, the transcript
`eqPrfName` revealing `name`, challenge 3. -/
theorem verify_equality_spec_witness :
    [3] = [modMul
      (env0.calcTeq pk0 eqPrfName.a_prime eqPrfName.e eqPrfName.v
        eqPrfName.m eqPrfName.m2
        ((schema0.attrs ∪ ncs0.attrs) \ sprName.revealed_attrs))
      (modInv (modDiv pk0.z
          ((eqPrfName.a_prime ^ 2 ^ LARGE_E_START *
            (eqPrfName.revealed_attrs.map
              (fun av => ((alookup pk0.r av.1).getD 0) ^ av.2)).prod) %
            pk0.n)
          pk0.n) pk0.n ^ 3 % pk0.n)
      pk0.n] :=
  verify_equality_spec env0 pk0 eqPrfName 3 schema0 ncs0 sprName [3]
    (by decide)

theorem list_len_six {α : Type} {l : List α} (h : l.length = 6) :
    ∃ a b c d e f, l = [a, b, c, d, e, f] := by
  match l with
  | [a, b, c, d, e, f] => exact ⟨a, b, c, d, e, f, rfl⟩
  | [] | [_] | [_, _] | [_, _, _] | [_, _, _, _] | [_, _, _, _, _] =>
    simp at h
  | _ :: _ :: _ :: _ :: _ :: _ :: _ :: _ =>
    simp at h

theorem toString_nat_zero : toString (0 : Nat) = "0" := by decide

theorem toString_nat_one : toString (1 : Nat) = "1" := by decide

theorem toString_nat_two : toString (2 : Nat) = "2" := by decide

theorem toString_nat_three : toString (3 : Nat) = "3" := by decide

theorem pow_mod_mul_left (a b c n : Nat) :
    (a % n * b) ^ c % n = (a * b) ^ c % n := by
  conv_lhs => rw [Nat.pow_mod, Nat.mod_mul_mod, ← Nat.pow_mod]

theorem except_pure_eq {eps alpha : Type} (a : alpha) :
    (pure a : Except eps alpha) = .ok a := rfl

theorem ge_dichotomy {A M E : Type} (env : Env A M E)
    (p_pub_key : CredentialPrimaryPublicKey)
    (proof : PrimaryPredicateGEProof) (c_hash : Nat)
    (b0 b1 b2 b3 b4 b5 : Nat)
    (hbase : env.calcTge p_pub_key proof.u proof.r proof.mj proof.alpha
      proof.t = [b0, b1, b2, b3, b4, b5]) :
    (∃ t0 t1 t2 t3 delta,
      alookup proof.t "0" = some t0 ∧ alookup proof.t "1" = some t1 ∧
      alookup proof.t "2" = some t2 ∧ alookup proof.t "3" = some t3 ∧
      alookup proof.t "DELTA" = some delta ∧
      verifyGePredicate env p_pub_key proof c_hash = .ok
        [modMul (modInv (modPow t0 c_hash p_pub_key.n) p_pub_key.n) b0
          p_pub_key.n,
         modMul (modInv (modPow t1 c_hash p_pub_key.n) p_pub_key.n) b1
          p_pub_key.n,
         modMul (modInv (modPow t2 c_hash p_pub_key.n) p_pub_key.n) b2
          p_pub_key.n,
         modMul (modInv (modPow t3 c_hash p_pub_key.n) p_pub_key.n) b3
          p_pub_key.n,
         modMul (modInv (modPow
             (modPow p_pub_key.z proof.predicate.value p_pub_key.n * delta)
             c_hash p_pub_key.n) p_pub_key.n) b4 p_pub_key.n,
         modMul (modInv (modPow delta c_hash p_pub_key.n) p_pub_key.n) b5
          p_pub_key.n]) ∨
    ((alookup proof.t "0" = none ∨ alookup proof.t "1" = none ∨
      alookup proof.t "2" = none ∨ alookup proof.t "3" = none ∨
      alookup proof.t "DELTA" = none) ∧
      ∃ msg, verifyGePredicate env p_pub_key proof c_hash =
        .error (.rejected msg)) := by
  have hrange : List.range ITERATION = [0, 1, 2, 3] := by decide
  have hrange4 : List.range 4 = [0, 1, 2, 3] := by decide
  cases h0 : alookup proof.t "0" with
  | none =>
    refine Or.inr ⟨Or.inl rfl, "Value by key not found in proof.t", ?_⟩
    rw [verifyGePredicate]
    simp [hbase, hrange, geFoldStep, toString_nat_zero, h0, bind, Except.bind, except_pure_eq, List.getD]
  | some t0 =>
  cases h1 : alookup proof.t "1" with
  | none =>
    refine Or.inr ⟨Or.inr (Or.inl rfl),
      "Value by key not found in proof.t", ?_⟩
    rw [verifyGePredicate]
    simp [hbase, hrange, geFoldStep, toString_nat_zero, toString_nat_one,
      h0, h1, bind, Except.bind, except_pure_eq, List.getD]
  | some t1 =>
  cases h2 : alookup proof.t "2" with
  | none =>
    refine Or.inr ⟨Or.inr (Or.inr (Or.inl rfl)),
      "Value by key not found in proof.t", ?_⟩
    rw [verifyGePredicate]
    simp [hbase, hrange, geFoldStep, toString_nat_zero, toString_nat_one,
      toString_nat_two, h0, h1, h2, bind, Except.bind, except_pure_eq, List.getD]
  | some t2 =>
  cases h3 : alookup proof.t "3" with
  | none =>
    refine Or.inr ⟨Or.inr (Or.inr (Or.inr (Or.inl rfl))),
      "Value by key not found in proof.t", ?_⟩
    rw [verifyGePredicate]
    simp [hbase, hrange, geFoldStep, toString_nat_zero, toString_nat_one,
      toString_nat_two, toString_nat_three, h0, h1, h2, h3, bind, Except.bind, except_pure_eq, List.getD]
  | some t3 =>
  cases hd : alookup proof.t "DELTA" with
  | none =>
    refine Or.inr ⟨Or.inr (Or.inr (Or.inr (Or.inr rfl))),
      "Value by key DELTA not found in proof.t", ?_⟩
    rw [verifyGePredicate]
    simp [hbase, hrange, geFoldStep, toString_nat_zero, toString_nat_one,
      toString_nat_two, toString_nat_three, h0, h1, h2, h3, hd, bind,
      Except.bind, except_pure_eq, List.getD]
  | some delta =>
    refine Or.inl ⟨t0, t1, t2, t3, delta, rfl, rfl, rfl, rfl, rfl, ?_⟩
    rw [verifyGePredicate]
    simp [hbase, hrange, hrange4, geFoldStep, toString_nat_zero,
      toString_nat_one, toString_nat_two, toString_nat_three, h0, h1, h2, h3,
      hd, bind, Except.bind, except_pure_eq, ITERATION, List.set,
      List.getD]

theorem ge_spec {A M E : Type} (env : Env A M E)
    (p_pub_key : CredentialPrimaryPublicKey)
    (proof : PrimaryPredicateGEProof) (c_hash : Nat) (res : List Nat)
    (hlen : (env.calcTge p_pub_key proof.u proof.r proof.mj proof.alpha
      proof.t).length = ITERATION + 2)
    (hok : verifyGePredicate env p_pub_key proof c_hash = .ok res) :
    res.length = ITERATION + 2 ∧
    (∀ i, i < ITERATION →
      res.getD i 0 =
        modInv ((alookup proof.t (toString i)).getD 0 ^ c_hash % p_pub_key.n)
            p_pub_key.n *
          ((env.calcTge p_pub_key proof.u proof.r proof.mj proof.alpha
            proof.t).getD i 0) % p_pub_key.n) ∧
    res.getD ITERATION 0 =
      modInv ((p_pub_key.z ^ proof.predicate.value *
          (alookup proof.t "DELTA").getD 0) ^ c_hash % p_pub_key.n)
          p_pub_key.n *
        ((env.calcTge p_pub_key proof.u proof.r proof.mj proof.alpha
          proof.t).getD ITERATION 0) % p_pub_key.n ∧
    res.getD (ITERATION + 1) 0 =
      modInv ((alookup proof.t "DELTA").getD 0 ^ c_hash % p_pub_key.n)
          p_pub_key.n *
        ((env.calcTge p_pub_key proof.u proof.r proof.mj proof.alpha
          proof.t).getD (ITERATION + 1) 0) % p_pub_key.n := by
  obtain ⟨b0, b1, b2, b3, b4, b5, hbase⟩ := list_len_six hlen
  rcases ge_dichotomy env p_pub_key proof c_hash b0 b1 b2 b3 b4 b5 hbase with
    ⟨t0, t1, t2, t3, delta, h0, h1, h2, h3, hd, hcomp⟩ | ⟨-, msg, hcomp⟩
  · rw [hcomp] at hok
    obtain rfl :
        [modMul (modInv (modPow t0 c_hash p_pub_key.n) p_pub_key.n) b0
          p_pub_key.n,
         modMul (modInv (modPow t1 c_hash p_pub_key.n) p_pub_key.n) b1
          p_pub_key.n,
         modMul (modInv (modPow t2 c_hash p_pub_key.n) p_pub_key.n) b2
          p_pub_key.n,
         modMul (modInv (modPow t3 c_hash p_pub_key.n) p_pub_key.n) b3
          p_pub_key.n,
         modMul (modInv (modPow
             (modPow p_pub_key.z proof.predicate.value p_pub_key.n * delta)
             c_hash p_pub_key.n) p_pub_key.n) b4 p_pub_key.n,
         modMul (modInv (modPow delta c_hash p_pub_key.n) p_pub_key.n) b5
          p_pub_key.n] = res := by injection hok
    refine ⟨by simp [ITERATION], ?_, ?_, ?_⟩
    · intro i hi
      have hi4 : i < 4 := by simpa [ITERATION] using hi
      interval_cases i <;>
        simp [List.getD, hbase, h0, h1, h2, h3, toString_nat_zero,
          toString_nat_one, toString_nat_two, toString_nat_three, modMul,
          modPow_eq]
    · simp [ITERATION, List.getD, hbase, hd, modMul, modPow_eq,
        pow_mod_mul_left]
    · simp [ITERATION, List.getD, hbase, hd, modMul, modPow_eq]
  · rw [hcomp] at hok
    exact absurd hok (by simp)

/-- Claim C5: whenever GE-predicate verification succeeds, the returned
list has `ITERATION + 2` entries; each indexed entry is
`tau_list[i] = (t[i] ^ c_hash)⁻¹ * tau_list[i] (mod n)` over the base list
of the shared routine `calc_tge`; the aggregate slot at `ITERATION` is
`((z ^ threshold * delta) ^ c_hash)⁻¹ * tau_list[ITERATION] (mod n)`; and
the final slot is `(delta ^ c_hash)⁻¹ * tau_list[ITERATION+1] (mod n)`,
with `delta = t["DELTA"]` (verifier.rs:486-538). -/
theorem verify_ge_predicate_spec {A M E : Type} (env : Env A M E)
    (p_pub_key : CredentialPrimaryPublicKey)
    (proof : PrimaryPredicateGEProof) (c_hash : Nat) (res : List Nat)
    (hlen : (env.calcTge p_pub_key proof.u proof.r proof.mj proof.alpha
      proof.t).length = ITERATION + 2)
    (hok : verifyGePredicate env p_pub_key proof c_hash = .ok res) :
    res.length = ITERATION + 2 ∧
    (∀ i, i < ITERATION →
      res.getD i 0 =
        modInv ((alookup proof.t (toString i)).getD 0 ^ c_hash % p_pub_key.n)
            p_pub_key.n *
          ((env.calcTge p_pub_key proof.u proof.r proof.mj proof.alpha
            proof.t).getD i 0) % p_pub_key.n) ∧
    res.getD ITERATION 0 =
      modInv ((p_pub_key.z ^ proof.predicate.value *
          (alookup proof.t "DELTA").getD 0) ^ c_hash % p_pub_key.n)
          p_pub_key.n *
        ((env.calcTge p_pub_key proof.u proof.r proof.mj proof.alpha
          proof.t).getD ITERATION 0) % p_pub_key.n ∧
    res.getD (ITERATION + 1) 0 =
      modInv ((alookup proof.t "DELTA").getD 0 ^ c_hash % p_pub_key.n)
          p_pub_key.n *
        ((env.calcTge p_pub_key proof.u proof.r proof.mj proof.alpha
          proof.t).getD (ITERATION + 1) 0) % p_pub_key.n :=
  ge_spec env p_pub_key proof c_hash res hlen hok

/-- Witness for claim C5 at a concrete input: the full transcript `gePrf0`
with challenge 3 under `pk0`. -/
theorem verify_ge_predicate_spec_witness :
    ([7, 9, 5, 3, 10, 8] : List Nat).length = ITERATION + 2 ∧
    (∀ i, i < ITERATION →
      ([7, 9, 5, 3, 10, 8] : List Nat).getD i 0 =
        modInv ((alookup gePrf0.t (toString i)).getD 0 ^ 3 % pk0.n) pk0.n *
          ((env0.calcTge pk0 gePrf0.u gePrf0.r gePrf0.mj gePrf0.alpha
            gePrf0.t).getD i 0) % pk0.n) ∧
    ([7, 9, 5, 3, 10, 8] : List Nat).getD ITERATION 0 =
      modInv ((pk0.z ^ gePrf0.predicate.value *
          (alookup gePrf0.t "DELTA").getD 0) ^ 3 % pk0.n) pk0.n *
        ((env0.calcTge pk0 gePrf0.u gePrf0.r gePrf0.mj gePrf0.alpha
          gePrf0.t).getD ITERATION 0) % pk0.n ∧
    ([7, 9, 5, 3, 10, 8] : List Nat).getD (ITERATION + 1) 0 =
      modInv ((alookup gePrf0.t "DELTA").getD 0 ^ 3 % pk0.n) pk0.n *
        ((env0.calcTge pk0 gePrf0.u gePrf0.r gePrf0.mj gePrf0.alpha
          gePrf0.t).getD (ITERATION + 1) 0) % pk0.n :=
  verify_ge_predicate_spec env0 pk0 gePrf0 3 [7, 9, 5, 3, 10, 8] (by decide)
    (by decide)

/-- Claim C6: in any run of `verify` whose structural consistency check
passed, every GE transcript processed for a registered credential carries a
predicate that is exactly one of the predicates stored at registration in
the sub-proof request, so the threshold value that exponentiates `z` in the
aggregate slot (`proof.predicate.value` at verifier.rs:518, validated by
the set equality of verifier.rs:341-352) is a registration-time value, not
an unvalidated value of the prover transcript. -/
theorem ge_threshold_from_registration
    (credentials : List (String × VerifiableCredential)) (proof : Proof)
    (k : String) (cred : VerifiableCredential) (item : SubProof)
    (gp : PrimaryPredicateGEProof)
    {A M E : Type} (env : Env A M E) (res : List Nat)
    (hch : checkVerifyParamsConsistency credentials proof = .ok ())
    (hcred : alookup credentials k = some cred)
    (hitem : alookup proof.proofs k = some item)
    (hgp : gp ∈ item.primary_proof.ge_proofs)
    (hlen : (env.calcTge cred.pub_key.p_key gp.u gp.r gp.mj gp.alpha
      gp.t).length = ITERATION + 2)
    (hok : verifyGePredicate env cred.pub_key.p_key gp
      proof.aggregated_proof.c_hash = .ok res) :
    gp.predicate ∈ cred.sub_proof_request.predicates ∧
    res.getD ITERATION 0 =
      modInv ((cred.pub_key.p_key.z ^ gp.predicate.value *
          (alookup gp.t "DELTA").getD 0) ^ proof.aggregated_proof.c_hash %
          cred.pub_key.p_key.n) cred.pub_key.p_key.n *
        ((env.calcTge cred.pub_key.p_key gp.u gp.r gp.mj gp.alpha
          gp.t).getD ITERATION 0) % cred.pub_key.p_key.n := by
  have hmem := mem_of_alookup_eq_some hcred
  obtain ⟨item2, hitem2, hrev, hpred⟩ :=
    checkCredential_ok_iff.mp (check_ok_iff.mp hch (k, cred) hmem)
  rw [hitem] at hitem2
  obtain rfl : item = item2 := by injection hitem2
  refine ⟨?_, (ge_spec env cred.pub_key.p_key gp
    proof.aggregated_proof.c_hash res hlen hok).2.2.1⟩
  rw [← hpred]
  exact List.mem_toFinset.mpr (List.mem_map.mpr ⟨gp, hgp, rfl⟩)

/-- Witness for claim C6 at a concrete input: one registered credential
with predicate `pred0`, a matching submission whose GE transcript carries
the same predicate. -/
theorem ge_threshold_from_registration_witness :
    gePrf0.predicate ∈ credPred.sub_proof_request.predicates ∧
    ([10, 1, 1, 1, 10, 10] : List Nat).getD ITERATION 0 =
      modInv ((credPred.pub_key.p_key.z ^ gePrf0.predicate.value *
          (alookup gePrf0.t "DELTA").getD 0) ^
          proofPred.aggregated_proof.c_hash %
          credPred.pub_key.p_key.n) credPred.pub_key.p_key.n *
        ((env0.calcTge credPred.pub_key.p_key gePrf0.u gePrf0.r gePrf0.mj
          gePrf0.alpha gePrf0.t).getD ITERATION 0) %
          credPred.pub_key.p_key.n :=
  ge_threshold_from_registration credsPred proofPred "k" credPred itemPred
    gePrf0 env0 [10, 1, 1, 1, 10, 10] (by decide) (by decide) (by decide)
    (by decide) (by decide) (by decide)

/-- Claim C7: if the GE transcript `t` map is missing any entry with a
key that is the string form of an index in `0..ITERATION`, or the entry
with key `DELTA`, GE verification fails with a proof-rejected error; no
default value is substituted (verifier.rs:496-513). -/
theorem ge_missing_t_entry_rejected {A M E : Type} (env : Env A M E)
    (p_pub_key : CredentialPrimaryPublicKey)
    (proof : PrimaryPredicateGEProof) (c_hash : Nat)
    (hlen : (env.calcTge p_pub_key proof.u proof.r proof.mj proof.alpha
      proof.t).length = ITERATION + 2)
    (hmiss : (∃ i, i < ITERATION ∧ alookup proof.t (toString i) = none) ∨
      alookup proof.t "DELTA" = none) :
    ∃ msg, verifyGePredicate env p_pub_key proof c_hash =
      .error (.rejected msg) := by
  obtain ⟨b0, b1, b2, b3, b4, b5, hbase⟩ := list_len_six hlen
  rcases ge_dichotomy env p_pub_key proof c_hash b0 b1 b2 b3 b4 b5 hbase with
    ⟨t0, t1, t2, t3, delta, h0, h1, h2, h3, hd, hcomp⟩ | ⟨-, msg, hcomp⟩
  · exfalso
    rcases hmiss with ⟨i, hi, hnone⟩ | hnone
    · have hi4 : i < 4 := by simpa [ITERATION] using hi
      interval_cases i
      · rw [toString_nat_zero, h0] at hnone; exact Option.noConfusion hnone
      · rw [toString_nat_one, h1] at hnone; exact Option.noConfusion hnone
      · rw [toString_nat_two, h2] at hnone; exact Option.noConfusion hnone
      · rw [toString_nat_three, h3] at hnone; exact Option.noConfusion hnone
    · rw [hd] at hnone; exact Option.noConfusion hnone
  · exact ⟨msg, hcomp⟩

/-- Witness for claim C7 at a concrete input: a transcript whose `t` map is
missing the indexed entry `1`. -/
theorem ge_missing_t_entry_rejected_witness :
    ∃ msg, verifyGePredicate env0 pk0 gePrfMissing 3 =
      .error (.rejected msg) :=
  ge_missing_t_entry_rejected env0 pk0 gePrfMissing 3 (by decide)
    (Or.inl ⟨1, by decide, by decide⟩)

/-- Claim C8: every non-revocation verification returns, for the
additive-style indices `t1, t2, t5, t6`, the term
`expected * challenge_element + calculated`, and for the
multiplicative-style indices `t3, t4, t7, t8`, the term
`expected ^ challenge_element * calculated`, where the expected values are
computed from the public registry and key state and the prover
commitment list only, the calculated values from the response and
commitment lists, and the challenge element is the group conversion of
`c_hash` (verifier.rs:541-605). -/
theorem non_revocation_terms_spec {A M E : Type} (env : Env A M E)
    (r_pub_key : CredentialRevocationPublicKey)
    (rev_reg : RevocationRegistry) (rev_key_pub : RevocationKeyPublic)
    (c_hash : Nat) (proof : NonRevocProof) :
    let ch := env.bignumToGroupElement c_hash
    let expected := env.createTauListExpectedValues r_pub_key rev_reg
      rev_key_pub proof.c_list
    let calcV := env.createTauListValues r_pub_key rev_reg proof.x_list
      proof.c_list
    let out := verifyNonRevocationProof env r_pub_key rev_reg rev_key_pub
      c_hash proof
    out.t1 = env.pointAdd (env.pointMul expected.t1 ch) calcV.t1 ∧
    out.t2 = env.pointAdd (env.pointMul expected.t2 ch) calcV.t2 ∧
    out.t5 = env.pointAdd (env.pointMul expected.t5 ch) calcV.t5 ∧
    out.t6 = env.pointAdd (env.pointMul expected.t6 ch) calcV.t6 ∧
    out.t3 = env.pairMul (env.pairPow expected.t3 ch) calcV.t3 ∧
    out.t4 = env.pairMul (env.pairPow expected.t4 ch) calcV.t4 ∧
    out.t7 = env.pairMul (env.pairPow expected.t7 ch) calcV.t7 ∧
    out.t8 = env.pairMul (env.pairPow expected.t8 ch) calcV.t8 :=
  ⟨rfl, rfl, rfl, rfl, rfl, rfl, rfl, rfl⟩

/-- Claim C2 (code bug): a submission containing a key id that was never
registered drives `verify` into a Rust panic — the `BTreeMap` index
`self.credentials[issuer_key_id]` of verifier.rs:211 — rather than the
proof-rejected error the spec demands; the registered-but-missing direction
is checked (verifier.rs:322-324) but the converse is not.  Concretely: the
single registered key `b` passes the structural check, yet the extra
submitted key `a` panics. -/
theorem verify_panics_on_unregistered_proof_key :
    checkVerifyParamsConsistency credsB proofExtra = .ok () ∧
    alookup credsB "a" = none ∧
    verify env0 credsB proofExtra 0 none = .error .panicked :=
  ⟨by decide, by decide, by decide⟩

end ProofVerifier

end IndyCrypto
